import Mathlib

/-!
Verification development for the menu-generator repository
(`menu_generator.py`, `app.py`, `run.py`).

The Python source is shallowly embedded: each relevant Python function becomes
an executable Lean definition with the same name. Modelling conventions:

* Python strings are `String`; all string operations are performed on `.data`
  (`List Char`), with ASCII-faithful models of `str.lower`/`str.upper`/
  `str.strip` (the source only manipulates ASCII keywords).
* Python `x in s` substring tests are `containsSub`.
* Dollar amounts: the source stores `price_cents` (an integer) and divides by
  `100.0` only to build the displayed value. Since `cents ↦ cents / 100` is
  strictly monotone and zero-preserving, the embedding keeps every price in
  integer cents (`ℕ`): comparisons, sort orders, minima and truthiness tests
  (`if price:`) are unchanged, and rendered money cells carry the cent value.
* `LINEAGE_ORDER` in the source maps to {0, 0.5, 1, 2, 2.5, 3} with default 99;
  the embedding scales all of these by 2 ({0, 1, 2, 4, 5, 6}, default 198) so
  the weights stay in `ℕ`. The map is order-isomorphic, so every comparison
  agrees with the source.
* Parsed weights (`float(...)` of a digits-and-dot token) are represented
  exactly as a pair `(mantissa, fracLen)` meaning `mantissa / 10 ^ fracLen`;
  the two comparisons the source performs (`weight >= 1.5`, `weight > 2.9`)
  are written as the equivalent integer inequalities.
* Fields read with `item.get(k) or ""` are `Option String` plus `orStr`;
  fields read with `item.get(k, "")` whose value is only ever used through
  null-tolerant helpers are plain `String`.
* A Python statement that can raise inside the modelled fragment is embedded
  with `Option`/`Except` (`none`/`.error` = exception).
-/

namespace MenuGen

/-! ### Python string primitives -/

/-- Python whitespace for `str.strip` (ASCII subset). -/
def isPySpace (c : Char) : Bool :=
  c = ' ' || c = '\t' || c = '\n' || c = '\r' || c = '\x0b' || c = '\x0c'

/-- Model of `str.strip()`. -/
def pyStrip (s : String) : String :=
  String.mk (((s.data.dropWhile isPySpace).reverse.dropWhile isPySpace).reverse)

/-- Model of `str.lower()` (ASCII: the source only lowercases ASCII keywords). -/
def pyLower (s : String) : String :=
  String.mk (s.data.map Char.toLower)

/-- Model of `str.upper()` (ASCII). -/
def pyUpper (s : String) : String :=
  String.mk (s.data.map Char.toUpper)

/-- Helper for `containsSub`: does `n` occur as a contiguous run in the list? -/
def subAux (n : List Char) : List Char → Bool
  | [] => n.isEmpty
  | c :: cs => n.isPrefixOf (c :: cs) || subAux n cs

/-- Model of Python `needle in hay` for strings (substring containment). -/
def containsSub (hay needle : String) : Bool :=
  subAux needle.data hay.data

/-- Model of Python `a or b` where `a` is a nullable string field:
returns `a` when it is present and non-empty (truthy), else `b`. -/
def orStr : Option String → String → String
  | none, b => b
  | some s, b => if s = "" then b else s

/-! ### Data model (§3 MenuItem; the fields the source reads) -/

/-- One entry of `item["prices"]`.  `price_cents` is `Option` because the
source reads it with two different defaults (`get("price_cents", 0)` and
`get("price_cents", 999999)`). -/
structure PriceEntry where
  unit : String := ""
  price_cents : Option ℕ := none
  unit_type : String := "g"
deriving DecidableEq

/-- A menu item record.  `thc_current`/`cbd_current` model
`item["thc"]["current"]` and `item["cbd"]["current"]` (read with default "").
An absent `prices` key and a present-but-empty list are identified (both are
falsy in `get_price_info`; see `sort_items_by_price_and_lineage` for the one
place the source distinguishes them). -/
structure Item where
  name : Option String := none
  strain : Option String := none
  brand : Option String := none
  product_type : Option String := none
  flower_type : Option String := none
  prices : List PriceEntry := []
  thc_current : String := ""
  cbd_current : String := ""
  tag_list : List String := []
  rooms : List String := []
  tier_name : String := ""
deriving DecidableEq

/-! ### Generic helpers (menu_generator.py lines 118-159) -/

/-- Model of `get_price_info` (lines 118-127): `(unit, price)` from the first price
entry; a unit with no ASCII letter gets a "g" suffix.  The price is kept in
integer cents (the source divides by 100.0; see the file header). -/
def get_price_info (item : Item) : String × ℕ :=
  match item.prices with
  | [] => ("", 0)
  | p :: _ =>
      let unit_raw := pyStrip p.unit
      let unit_raw :=
        if unit_raw ≠ "" ∧ ¬ (unit_raw.data.any Char.isAlpha) then unit_raw ++ "g" else unit_raw
      (unit_raw, p.price_cents.getD 0)

/-- Model of `DEFAULT_LINEAGE_MAP` (lines 63-66). -/
def DEFAULT_LINEAGE_MAP : List (String × String) :=
  [("sativa", "S"), ("sativa_hybrid", "SH"), ("hybrid", "H"),
   ("indica", "I"), ("indica_hybrid", "IH"), ("cbd", "CBD")]

/-- Model of `get_lineage_abbr` (lines 129-132). -/
def get_lineage_abbr (item : Item) : String :=
  (DEFAULT_LINEAGE_MAP.lookup (pyLower (orStr item.flower_type ""))).getD ""

/-- Model of `LINEAGE_ORDER` (line 73), scaled by 2 to stay in `ℕ`
(source: S 0, SH 0.5, H 1, I 2, IH 2.5, CBD 3). -/
def LINEAGE_ORDER : List (String × ℕ) :=
  [("S", 0), ("SH", 1), ("H", 2), ("I", 4), ("IH", 5), ("CBD", 6)]

/-- Model of `get_lineage_order` (lines 134-136); the source default 99 scales to 198. -/
def get_lineage_order (abbr : String) : ℕ :=
  (LINEAGE_ORDER.lookup abbr).getD 198

/-! ### Python float parsing (used by the weight heuristic and `format_cbd_value`) -/

/-- Value of a run of decimal digits. -/
def digitsToNat (cs : List Char) : ℕ :=
  cs.foldl (fun n c => 10 * n + (c.toNat - 48)) 0

/-- Model of `float(tok)` for a token drawn from `[\d.]+`: valid iff it has at
most one dot and at least one digit; the value `mantissa / 10 ^ fracLen` is
returned as the exact pair `(mantissa, fracLen)`.  `none` models the
`ValueError` Python raises on tokens such as "." or "1.2.3". -/
def pyFloatDigits? (cs : List Char) : Option (ℕ × ℕ) :=
  if cs.any (fun c => ¬ (c.isDigit || c = '.')) then none
  else if 1 < cs.count '.' then none
  else if cs.all (· = '.') then none
  else
    let intPart := cs.takeWhile (· ≠ '.')
    let fracPart := (cs.dropWhile (· ≠ '.')).drop 1
    some (digitsToNat (intPart ++ fracPart), fracPart.length)

/-- First match of the regex `([\d.]+)`: the first maximal run of digits/dots. -/
def firstNumToken : List Char → Option (List Char)
  | [] => none
  | c :: cs =>
      if c.isDigit || c = '.' then some (c :: cs.takeWhile (fun d => d.isDigit || d = '.'))
      else firstNumToken cs

/-- Model of `float(raw)` for the free-form strings fed to `format_cbd_value`:
optional surrounding whitespace, optional sign, digits with at most one dot.
Exotic literal forms (exponents, "inf", "nan", underscores) are not modelled
and parse as `none`. Returns the unsigned decimal pair. -/
def pyFloatStr? (s : String) : Option (ℕ × ℕ) :=
  let cs := (pyStrip s).data
  let cs := match cs with
    | '+' :: rest => rest
    | '-' :: rest => rest
    | rest => rest
  pyFloatDigits? cs

/-- Model of `format_cbd_value` (lines 143-149): "<LOQ" when empty or parses to 0.0,
else the original string (also when unparsable). -/
def format_cbd_value (raw_str : String) : String :=
  if raw_str = "" then "<LOQ"
  else
    match pyFloatStr? raw_str with
    | some w => if w.1 = 0 then "<LOQ" else raw_str
    | none => raw_str

/-! ### Text truncation (lines 151-159)

`pdfmetrics.stringWidth(text, font, size)` is modelled by an arbitrary
per-character width function `cw : Char → ℚ` (one such function per
font/size pair; real font metrics are nonnegative and a string's width is
the sum of its characters' widths). -/

/-- Sum-of-character-widths model of `pdfmetrics.stringWidth`. -/
def stringWidth (cw : Char → ℚ) (s : String) : ℚ :=
  (s.data.map cw).sum

/-- The `while text and stringWidth(text) + ell_w > max_width: text = text[:-1]`
loop of `truncate_text`. -/
def truncate_loop (cw : Char → ℚ) (ell_w max_width : ℚ) (cs : List Char) : List Char :=
  if h : cs = [] then cs
  else if (cs.map cw).sum + ell_w > max_width then truncate_loop cw ell_w max_width cs.dropLast
  else cs
termination_by cs.length
decreasing_by
  simp only [List.length_dropLast]
  exact Nat.sub_lt (List.length_pos.mpr h) Nat.one_pos

/-- Model of `truncate_text` (lines 151-159). -/
def truncate_text (cw : Char → ℚ) (text : String) (max_width : ℚ) : String :=
  if text = "" then ""
  else if stringWidth cw text ≤ max_width then text
  else String.mk (truncate_loop cw (stringWidth cw "…") max_width text.data) ++ "…"

/-! #### Truncation lemmas (for claim C9) -/

theorem truncate_loop_spec (cw : Char → ℚ) (e m : ℚ) (cs : List Char) :
    truncate_loop cw e m cs = [] ∨ ((truncate_loop cw e m cs).map cw).sum + e ≤ m := by
  induction cs using truncate_loop.induct cw e m with
  | case1 => left; simp [truncate_loop]
  | case2 cs h hgt ih => rw [truncate_loop]; simp only [dif_neg h, if_pos hgt]; exact ih
  | case3 cs h hle => right; rw [truncate_loop]; simp only [dif_neg h, if_neg hle]; linarith

theorem data_append_ell (l : List Char) : (String.mk l ++ "…").data = l ++ ['…'] := by
  simp [String.data_append]

theorem stringWidth_mk_append_ell (cw : Char → ℚ) (l : List Char) :
    stringWidth cw (String.mk l ++ "…") = (l.map cw).sum + stringWidth cw "…" := by
  have hell : ("…" : String).data = ['…'] := rfl
  simp [stringWidth, data_append_ell, hell]

/-- Claim C9: text truncation is idempotent — for every (nonnegative) width
metric, maximum width and string, `truncate_text` applied to its own output is
the identity; in particular an already-truncated, ellipsis-terminated string
that fits within the width is returned as-is. -/
theorem truncate_text_idempotent (cw : Char → ℚ) (hcw : ∀ c, 0 ≤ cw c)
    (text : String) (max_width : ℚ) :
    truncate_text cw (truncate_text cw text max_width) max_width
      = truncate_text cw text max_width := by
  by_cases h0 : text = ""
  · simp [truncate_text, h0]
  · by_cases h1 : stringWidth cw text ≤ max_width
    · simp [truncate_text, h0, h1]
    · -- the truncating branch: result is `String.mk l ++ "…"`
      have hell : ("…" : String).data = ['…'] := rfl
      have hne : ∀ l : List Char, (String.mk l ++ "…") ≠ "" := by
        intro l hcontra
        have : (String.mk l ++ "…").data = [] := by rw [hcontra]
        rw [data_append_ell] at this
        simp at this
      have hr : truncate_text cw text max_width
          = String.mk (truncate_loop cw (stringWidth cw "…") max_width text.data) ++ "…" := by
        rw [truncate_text, if_neg h0, if_neg h1]
      rw [hr]
      have hsw : stringWidth cw ("…" : String) = cw '…' := by
        simp [stringWidth, hell]
      rcases truncate_loop_spec cw (stringWidth cw "…") max_width text.data with hl | hl
      · -- loop consumed everything: the result is just "…"
        rw [hl]
        have e0 : String.mk [] ++ "…" = "…" := rfl
        rw [e0]
        by_cases h2 : stringWidth cw ("…" : String) ≤ max_width
        · rw [truncate_text, if_neg (by decide : ("…" : String) ≠ ""), if_pos h2]
        · -- "…" itself overflows: one more pass strips it and re-appends it
          rw [truncate_text, if_neg (by decide : ("…" : String) ≠ ""), if_neg h2]
          have hloop : truncate_loop cw (stringWidth cw "…") max_width ("…" : String).data = [] := by
            rw [hell, truncate_loop, dif_neg (by simp : (['…'] : List Char) ≠ [])]
            rw [if_pos]
            · rw [show (['…'] : List Char).dropLast = [] from rfl, truncate_loop, dif_pos rfl]
            · have h2' : max_width < cw '…' := by rw [hsw] at h2; exact lt_of_not_le h2
              have hcnn := hcw '…'
              simp only [List.map_cons, List.map_nil, List.sum_cons, List.sum_nil, add_zero, hsw]
              linarith
          rw [hloop, e0]
      · -- loop stopped with a fitting remainder: the output fits as-is
        rw [truncate_text, if_neg (hne _), if_pos]
        rw [stringWidth_mk_append_ell]
        exact hl

def cw_unit : Char → ℚ := fun _ => 1

theorem truncate_text_idempotent_witness :
    truncate_text cw_unit (truncate_text cw_unit "abcdef" 3) 3
      = truncate_text cw_unit "abcdef" 3 :=
  truncate_text_idempotent cw_unit (fun _ => zero_le_one) "abcdef" 3

/-! ### Preroll classification (lines 165-203) -/

/-- Model of `process_flavored_title` (lines 165-168). -/
def afterFirstHyphen : List Char → Option (List Char)
  | [] => none
  | c :: cs => if c = '-' then some cs else afterFirstHyphen cs

def process_flavored_title (title : String) : String :=
  if title = "" then ""
  else
    match afterFirstHyphen title.data with
    | some rest => pyStrip (String.mk rest)
    | none => pyStrip title

/-- Word characters for the regex `\b` boundary. -/
def isWordChar (c : Char) : Bool := c.isAlphanum || c = '_'

/-- Case-insensitive literal match at the head of `l`, requiring a word
boundary right after the literal. -/
def litHere (l lit : List Char) : Bool :=
  lit.isPrefixOf (l.map Char.toLower) && ¬ isWordChar ((l.drop lit.length).headD ' ')

/-- One attempted match of `(\d+)\s*(?:pk|pack)\b` starting at this position. -/
def matchPkAt (cs : List Char) : Option String :=
  let ds := cs.takeWhile Char.isDigit
  if ds = [] then none
  else
    let rest := (cs.drop ds.length).dropWhile isPySpace
    if litHere rest ['p', 'k'] then some (String.mk ds)
    else if litHere rest ['p', 'a', 'c', 'k'] then some (String.mk ds)
    else none

def scanPk : List Char → Option String
  | [] => none
  | c :: cs =>
      match matchPkAt (c :: cs) with
      | some s => some s
      | none => scanPk cs

/-- Model of `extract_pack_size` (lines 170-174): first match of
`(\d+)\s*(?:pk|pack)\b`, case-insensitively. -/
def extract_pack_size (title : String) : Option String :=
  if title = "" then none else scanPk title.data

/-- The lowercased title, product type and brand read at the top of
`determine_preroll_category` (lines 178-180). -/
def preroll_title (item : Item) : String :=
  pyLower (orStr item.name (orStr item.strain ""))

def preroll_ptype (item : Item) : String :=
  pyLower (orStr item.product_type "")

def preroll_brand (item : Item) : String :=
  pyLower (orStr item.brand "")

/-- The weight parse of lines 181-185: regex `([\d.]+)` over the lowercased
first price unit, fed to `float`. `some (0, 0)` when there is no price or no
match (weight stays 0); `none` models the uncaught `ValueError` from `float`
on a malformed token. -/
def preroll_weight (item : Item) : Option (ℕ × ℕ) :=
  match item.prices with
  | [] => some (0, 0)
  | p :: _ =>
      match firstNumToken (pyLower p.unit).data with
      | none => some (0, 0)
      | some tok => pyFloatDigits? tok

/-- Model of `determine_preroll_category` (lines 176-195). The two float comparisons
`weight >= 1.5` and `weight > 2.9` are written as the equivalent exact
integer inequalities on the `(mantissa, fracLen)` pair. -/
def determine_preroll_category (item : Item) : Option String :=
  (preroll_weight item).map fun weight =>
    let title := preroll_title item
    let product_type := preroll_ptype item
    let brand := preroll_brand item
    if containsSub product_type "flavored" || containsSub product_type "combined" then "Flavored"
    else if containsSub brand "hellavated" then
      if containsSub title "flavored" || containsSub product_type "combined" then "Flavored"
      else if 15 * 10 ^ weight.2 ≤ 10 * weight.1 then "Preroll Packs" -- weight >= 1.5
      else if containsSub title "blunt" then "Infused Blunts"
      else "Infused Prerolls"
    else if 29 * 10 ^ weight.2 < 10 * weight.1 then "Preroll Packs" -- weight > 2.9
    else
      let is_infused := containsSub product_type "infused" || brand = "portland heights"
      let is_blunt := containsSub title "blunt" || containsSub title "blunts"
      if is_infused && is_blunt then "Infused Blunts"
      else if is_infused then "Infused Prerolls"
      else if is_blunt then "Plain Blunts"
      else "Plain Prerolls"

/-- The `cats` dict of `group_preroll_items` (line 199): a fixed-key mapping
from the six category names to item lists, one field per key. -/
structure PrerollCats where
  plain_prerolls : List Item := []
  plain_blunts : List Item := []
  infused_prerolls : List Item := []
  infused_blunts : List Item := []
  flavored : List Item := []
  preroll_packs : List Item := []
deriving DecidableEq

def emptyPrerollCats : PrerollCats := {}

/-- The dict as an ordered key/value list (Python dict literal order). -/
def prerollCatsList (cats : PrerollCats) : List (String × List Item) :=
  [("Plain Prerolls", cats.plain_prerolls), ("Plain Blunts", cats.plain_blunts),
   ("Infused Prerolls", cats.infused_prerolls), ("Infused Blunts", cats.infused_blunts),
   ("Flavored", cats.flavored), ("Preroll Packs", cats.preroll_packs)]

/-- Model of `cats[cat].append(item)`; `none` models the `KeyError` a key outside the
six would raise. -/
def updateCat (cats : PrerollCats) (cat : String) (item : Item) : Option PrerollCats :=
  if cat = "Plain Prerolls" then some { cats with plain_prerolls := cats.plain_prerolls ++ [item] }
  else if cat = "Plain Blunts" then some { cats with plain_blunts := cats.plain_blunts ++ [item] }
  else if cat = "Infused Prerolls" then
    some { cats with infused_prerolls := cats.infused_prerolls ++ [item] }
  else if cat = "Infused Blunts" then
    some { cats with infused_blunts := cats.infused_blunts ++ [item] }
  else if cat = "Flavored" then some { cats with flavored := cats.flavored ++ [item] }
  else if cat = "Preroll Packs" then
    some { cats with preroll_packs := cats.preroll_packs ++ [item] }
  else none

/-- Model of `group_preroll_items` (lines 197-203), over an already-extracted item
list (`extract_all_items` is modelled separately on the raw feed). -/
def group_preroll_items (items : List Item) : Option PrerollCats :=
  items.foldlM
    (fun cats item => (determine_preroll_category item).bind fun cat => updateCat cats cat item)
    emptyPrerollCats

/-! ### Cart & dab classification (lines 300-324) -/

/-- Model of `process_cart_dab_title` (lines 300-303). -/
def process_cart_dab_title (title : String) : String :=
  if title = "" then ""
  else
    match afterFirstHyphen title.data with
    | some rest => pyStrip (String.mk rest)
    | none => pyStrip title

/-- Model of `is_thc_mg_item` (lines 305-309). -/
def is_thc_mg_item (item : Item) : Bool :=
  let product_type := pyLower (orStr item.product_type "")
  let title := pyLower (orStr item.name "")
  ["flavored", "combined", "concentrate"].any fun term =>
    containsSub product_type term || containsSub title term

/-- Model of `is_flavored_item` (lines 311-318). -/
def is_flavored_item (item : Item) : Bool :=
  let product_type := pyLower (orStr item.product_type "")
  let name := pyLower (orStr item.name "")
  containsSub product_type "flavored" || containsSub product_type "combined"
    || containsSub name "flavored"

/-- Model of `is_disposable_item` (lines 320-324). -/
def is_disposable_item (item : Item) : Bool :=
  let name := pyLower (orStr item.name "")
  ["dispos", "all in one", "all-in-one", "allinone"].any fun keyword =>
    containsSub name keyword

/-- The four-way bucket loop of `generate_cart_dab_pdf_condensed`
(lines 428-439): `(carts, flavored_carts, disposables, flavored_disposables)`,
each preserving input order. -/
def categorize_cart_items : List Item → List Item × List Item × List Item × List Item
  | [] => ([], [], [], [])
  | item :: rest =>
      let (carts, flavored_carts, disposables, flavored_disposables) :=
        categorize_cart_items rest
      let is_disp := is_disposable_item item
      let is_flav := is_flavored_item item
      if is_disp && is_flav then
        (carts, flavored_carts, disposables, item :: flavored_disposables)
      else if is_disp then (carts, flavored_carts, item :: disposables, flavored_disposables)
      else if is_flav then (carts, item :: flavored_carts, disposables, flavored_disposables)
      else (item :: carts, flavored_carts, disposables, flavored_disposables)

/-! ### Grouping & sorting engine

Python `sorted(xs, key=k)` is a stable sort by the (lexicographically
compared) key.  A stable sort with respect to a total preorder is unique, so
`List.insertionSort` with `key a ≤ key b` (Mathlib's `insertionSort` is
stable) computes exactly what `sorted` computes.  Tuple keys become nested
`Lex` products; string components are compared as their `List Char`
(code-point lexicographic, as in Python). -/

def pySorted {α κ : Type} [LinearOrder κ] (key : α → κ) (l : List α) : List α :=
  List.insertionSort (fun a b => key a ≤ key b) l

theorem pySorted_perm {α κ : Type} [LinearOrder κ] (key : α → κ) (l : List α) :
    (pySorted key l).Perm l :=
  List.perm_insertionSort _ l

theorem pySorted_sorted {α κ : Type} [LinearOrder κ] (key : α → κ) (l : List α) :
    (pySorted key l).Sorted (fun a b => key a ≤ key b) := by
  haveI : IsTotal α (fun a b => key a ≤ key b) := ⟨fun a b => le_total (key a) (key b)⟩
  haveI : IsTrans α (fun a b => key a ≤ key b) := ⟨fun _ _ _ h1 h2 => le_trans h1 h2⟩
  exact List.sorted_insertionSort _ l

/-- Python dict key order: first occurrence of each key (structural
recursion over the list with a seen-set accumulator, so it evaluates in the
kernel). -/
def firstKeyDedupAux {κ : Type} [DecidableEq κ] (seen : List κ) : List κ → List κ
  | [] => []
  | k :: ks => if k ∈ seen then firstKeyDedupAux seen ks
    else k :: firstKeyDedupAux (k :: seen) ks

def firstKeyDedup {κ : Type} [DecidableEq κ] (l : List κ) : List κ :=
  firstKeyDedupAux [] l

/-- The item sort key shared by the preroll group loops (lines 221/268) and
`sort_cart_dab_groups` (line 339):
`(price, lineage weight, strain.lower())`. -/
def price_lineage_strain_key (i : Item) : Lex (ℕ × Lex (ℕ × List Char)) :=
  toLex ((get_price_info i).2,
    toLex (get_lineage_order (get_lineage_abbr i), (pyLower (orStr i.strain "")).data))

/-- The grouping key of the missing `group_by_brand_unit`: trimmed brand and
the `get_price_info` unit. -/
def brand_unit_key (item : Item) : String × String :=
  (pyStrip (orStr item.brand ""), (get_price_info item).1)

/-- Modelled from the spec: `group_by_brand_unit` is called by both preroll
generators (lines 221 and 268) but its definition is missing from the
provided sources.  Spec §3/§4.3: the preroll grouping key is `(brand, unit)`
with `brand` the trimmed brand string and `unit` derived from `price_info`,
mapping to the list of items with that key; keys appear in first-occurrence
order as in a Python dict built with `setdefault(...).append(...)` (mirroring
the in-source `group_by_brand_unit_price`). -/
def group_by_brand_unit (items : List Item) : List ((String × String) × List Item) :=
  (firstKeyDedup (items.map brand_unit_key)).map
    fun k => (k, items.filter fun i => brand_unit_key i = k)

/-- Model of `group_by_brand_unit_price` (lines 326-333), modelled extensionally: keys
in first-occurrence order, each mapped to the items with that key in input
order (exactly what the `setdefault`/`append` loop builds). -/
def brand_unit_price_key (item : Item) : String × String × ℕ :=
  (pyStrip (orStr item.brand ""), get_price_info item)

def group_by_brand_unit_price (items : List Item) : List ((String × String × ℕ) × List Item) :=
  (firstKeyDedup (items.map brand_unit_price_key)).map
    fun k => (k, items.filter fun i => brand_unit_price_key i = k)

/-- Model of `sort_cart_dab_groups` (lines 335-339). -/
def sort_cart_dab_groups (items : List Item) : List (String × String × ℕ × List Item) :=
  let group_map := group_by_brand_unit_price items
  let sorted_keys := pySorted
    (fun k : String × String × ℕ => toLex (k.2.2, toLex ((pyLower k.1).data, (pyLower k.2.1).data)))
    (group_map.map Prod.fst)
  sorted_keys.map fun k =>
    (k.1, k.2.1, k.2.2, pySorted price_lineage_strain_key ((group_map.lookup k).getD []))

/-- Model of `min((get_price_info(i)[1] for i in gmap[k]), default=9e9)` (lines
222/269); the 9e9-dollar default is 9e11 in cents. -/
def minPriceD (l : List Item) : ℕ :=
  ((l.map fun i => (get_price_info i).2).min?).getD 900000000000

/-- The `gmap`/`sorted_keys` pipeline shared verbatim by
`generate_preroll_pdf` (lines 221-222) and `generate_preroll_pdf_condensed`
(lines 268-269): group a category's items by (brand, unit), sort each group by
(price, lineage, strain), and order the groups by
(min group price, brand.lower(), unit.lower()). -/
def preroll_sorted_groups (cat_items : List Item) : List ((String × String) × List Item) :=
  let gmap := (group_by_brand_unit cat_items).map
    fun kv => (kv.1, pySorted price_lineage_strain_key kv.2)
  let sorted_keys := pySorted
    (fun k : String × String =>
      toLex (minPriceD ((gmap.lookup k).getD []), toLex ((pyLower k.1).data, (pyLower k.2).data)))
    (gmap.map Prod.fst)
  sorted_keys.map fun k => (k, (gmap.lookup k).getD [])

/-- For each rendered (brand, unit) group, the data of its subheading
`f"{brand} {unit} ${min_price:.2f}"`: the brand, the unit and the cent value
the heading prints — `get_price_info(subitems[0])[1]` (lines 223-228 and
270-275; empty groups are skipped by `if not subitems: continue`). -/
def preroll_group_rows (cat_items : List Item) : List (String × String × ℕ) :=
  (preroll_sorted_groups cat_items).filterMap fun kv =>
    match kv.2 with
    | [] => none
    | i :: _ => some (kv.1.1, kv.1.2, (get_price_info i).2)

/-! ### Prepack logic (lines 459-483) -/

/-- Model of `get_special_designation` (lines 459-464). -/
def get_special_designation (item : Item) : String :=
  let name_lower := pyLower (orStr item.name "")
  if containsSub name_lower "last of flower" && containsSub name_lower "as is" then
    "Last of Flower / As Is"
  else if containsSub name_lower "shake" then "Shake"
  else ""

/-- The sort key of `sort_items_by_price_and_lineage` (lines 466-473):
`(price_cents or 999999, lineage weight, strain.strip().lower())`.  The
source reads `item.get("prices", [{}])[0]`, so an absent prices key gives the
999999 sentinel (an explicitly-present empty list would `IndexError`; the
model identifies it with the absent case, see `Item`). -/
def prepack_sort_key (i : Item) : Lex (ℕ × Lex (ℕ × List Char)) :=
  let price := match i.prices with
    | [] => 999999
    | p :: _ => p.price_cents.getD 999999
  toLex (price,
    toLex (get_lineage_order (get_lineage_abbr i), (pyLower (pyStrip (orStr i.strain ""))).data))

def sort_items_by_price_and_lineage (items : List Item) : List Item :=
  pySorted prepack_sort_key items

/-- Model of `get_all_weights` (lines 475-483): the sorted, deduplicated
`f"{unit}{unit_type[0]}"` display set, comma-joined. -/
def get_all_weights (item : Item) : String :=
  match item.prices with
  | [] => ""
  | ps =>
      let displays := firstKeyDedup (ps.filterMap fun p =>
        if p.unit = "" then none
        else some (p.unit ++ (match p.unit_type.data with
          | [] => ""
          | c :: _ => String.mk [c])))
      String.intercalate ", " (pySorted (fun s : String => s.data) displays)

/-! ### Flower logic (lines 597-628) -/

def ALLOWED_ROOMS : List String := ["Floor Stock", "Floor Stock : Diamond"]

/-- Model of `extract_flower_data`'s room filter (lines 604-611), over extracted items. -/
def extract_flower_data (items : List Item) : List Item :=
  items.filter fun item => item.rooms.isEmpty || item.rooms.any fun room => room ∈ ALLOWED_ROOMS

/-- Model of `is_foster_special` (lines 613-616): some tag contains both the special
type and the literal "Foster" (plain case-sensitive substring tests). -/
def is_foster_special (item : Item) (special_type : String) : Bool :=
  item.tag_list.any fun tag => containsSub tag special_type && containsSub tag "Foster"

/-- Model of `filter_by_tier` (lines 618-620). -/
def filter_by_tier (items : List Item) (tier : String) : List Item :=
  items.filter fun item => pyLower (pyStrip item.tier_name) = pyLower tier

/-- The `sort_flower_items` key (lines 622-628):
`(lineage group weight, name.strip().lower())`. -/
def flower_sort_key (i : Item) : Lex (ℕ × List Char) :=
  toLex (get_lineage_order (get_lineage_abbr i), (pyLower (pyStrip (orStr i.name ""))).data)

def sort_flower_items (items : List Item) : List Item :=
  pySorted flower_sort_key items

inductive HighlightColor where
  | yellow
  | lightblue
deriving DecidableEq

/-- The discount-highlight decision of `generate_flower_pdf` (lines 666-668):
`colors.yellow` (legend: "Last Chance Special 30% OFF") when
`is_foster_special(item, "Last Chance")`, else `colors.lightblue` (legend:
"Manager Special 50% OFF") when `is_foster_special(item, "Manager Special")`.
The generator takes no store argument, so this is the rule for every
requesting store. -/
def flower_row_highlight (item : Item) : Option HighlightColor :=
  if is_foster_special item "Last Chance" then some HighlightColor.yellow
  else if is_foster_special item "Manager Special" then some HighlightColor.lightblue
  else none

/-! ### Feed normalizer (lines 105-112) — over raw Python values -/

/-- Untyped Python values, as far as `extract_all_items` can observe them. -/
inductive PyVal where
  | none
  | str (s : String)
  | num (n : ℤ)
  | list (xs : List PyVal)
  | dict (kvs : List (String × PyVal))

/-- Python truthiness for the class of values above. -/
def pyTruthy : PyVal → Bool
  | .none => false
  | .str s => s ≠ ""
  | .num n => n ≠ 0
  | .list xs => ¬ xs.isEmpty
  | .dict kvs => ¬ kvs.isEmpty

/-- Model of `v.get(key, default)`: the stored value (even when it is `None`) when the
key is present, the default when absent, and an `AttributeError` when `v` is
not a dict. -/
def pyGet (v : PyVal) (key : String) (dflt : PyVal) : Except String PyVal :=
  match v with
  | .dict kvs => .ok ((kvs.lookup key).getD dflt)
  | _ => .error "AttributeError"

/-- Iterating a Python value (`for ... in v`, `list.extend(v)`): lists yield
elements, strings their characters, dicts their keys; anything else is a
`TypeError`. -/
def pyIter : PyVal → Except String (List PyVal)
  | .list xs => .ok xs
  | .str s => .ok (s.data.map fun c => .str (String.mk [c]))
  | .dict kvs => .ok (kvs.map fun kv => .str kv.1)
  | _ => .error "TypeError"

/-- Model of `extract_all_items` (lines 105-112).  `.error e` models an uncaught
exception `e` escaping to the caller. -/
def extract_all_items (menu_feed : PyVal) : Except String (List PyVal) :=
  if ¬ pyTruthy menu_feed then .ok []
  else do
    let mf ← pyGet menu_feed "menu_feed" (.dict [])
    let mg ← pyGet mf "menu_groups" (.list [])
    let groups ← pyIter mg
    groups.foldlM
      (fun items group => do
        let mi ← pyGet group "menu_items" (.list [])
        let xs ← pyIter mi
        pure (items ++ xs))
      []

/-! ### Document layout engine

Flowables are modelled structurally: paragraphs and table cells carry their
text content, group subheadings carry the `(brand, unit, cents, pack)` data
formatted into `f"{brand} {unit} ${price:.2f}"` (+ optional " {n} pack"),
money cells carry the cent value rendered as `"$%.2f"`.  Pure styling
(fonts, colors, paddings, KeepTogether pagination hints) is omitted:
KeepTogether blocks are inlined since they only affect page breaking. -/

inductive Cell where
  | txt (s : String)
  | money (cents : ℕ)
deriving DecidableEq

inductive Flowable where
  | para (text : String)
  | groupHeading (brand unit : String) (cents : ℕ) (pack : Option String)
  | spacer (height : ℕ)
  | table (rows : List (List Cell))
  | pageBreak
deriving DecidableEq

def encodeCell : Cell → List ℕ
  | .txt s => 0 :: s.data.map Char.toNat
  | .money c => [1, c]

def encodeFlowable : Flowable → List ℕ
  | .para s => 2 :: s.data.map Char.toNat
  | .groupHeading b u c p =>
      3 :: c :: (b.data ++ u.data ++ (p.getD "").data).map Char.toNat
  | .spacer h => [4, h]
  | .table rows => 5 :: rows.flatMap fun r => r.flatMap encodeCell
  | .pageBreak => [6]

/-- Modelled from the library: reportlab's `doc.build(story)` always writes a
complete PDF shell (the "%PDF-" header, page tree and trailer) into the
buffer — its output is non-empty even for an empty story.  The bytes are
abstracted as a header byte (37 = '%') followed by an encoding of the story.
When `build` is never called the `BytesIO` buffer stays empty, so a
generator that skips the build returns `[]`. -/
def doc_build (story : List Flowable) : List ℕ :=
  37 :: story.flatMap encodeFlowable

/-! #### Cart & dab generators (lines 341-453) -/

/-- Column 0 width `fw * 0.5` of the full-size cart/dab (and preroll) tables:
letter width 612, margins 24, gap 12 give `fw = 276`. -/
def FULL_COLW : ℚ := 138

/-- Column 0 width for the condensed variants: margins 18, gap 10 give
`fw = 283`. -/
def COND_COLW : ℚ := 283 / 2

/-- One cart/dab group table (lines 358-365 / 412-419): a header row chosen
by the any-mg predicate, then one row per item. -/
def cart_dab_table (cw : Char → ℚ) (colw : ℚ) (subitems : List Item) : Flowable :=
  let hdr :=
    if subitems.any is_thc_mg_item then [Cell.txt "Product Name", Cell.txt "THC MG", Cell.txt "CBD MG"]
    else [Cell.txt "Product Name", Cell.txt "THC %", Cell.txt "CBD %"]
  .table (hdr :: subitems.map fun it =>
    [Cell.txt (truncate_text cw (process_cart_dab_title (orStr it.name "")) colw),
     Cell.txt it.thc_current, Cell.txt (format_cbd_value it.cbd_current)])

/-- Model of `generate_cart_dab_pdf` (lines 341-373).  `doc.build` is called
unconditionally (line 370) and `elements` always starts with the title
paragraph (line 354). -/
def generate_cart_dab_pdf (cw : Char → ℚ) (items : List Item) (menu_title : String) : List ℕ :=
  doc_build ([Flowable.para menu_title, Flowable.spacer 12] ++
    (sort_cart_dab_groups items).flatMap fun g =>
      [Flowable.groupHeading g.1 g.2.1 g.2.2.1 none, Flowable.spacer 6,
       cart_dab_table cw FULL_COLW g.2.2.2, Flowable.spacer 12])

/-- Model of `render_section` of `generate_cart_dab_pdf_condensed` (lines 396-423),
as a pure `elements`-transformer; `_is_main_header` only changes a paragraph
style. -/
def render_section (cw : Char → ℚ) (title : String) (items_list : List Item)
    (page_break _is_main_header : Bool) (elements : List Flowable) : List Flowable :=
  if items_list = [] then elements
  else
    elements ++ (if page_break ∧ elements ≠ [] then [Flowable.pageBreak] else []) ++
      [Flowable.para title, Flowable.spacer 4] ++
      (sort_cart_dab_groups items_list).flatMap fun g =>
        [Flowable.groupHeading g.1 g.2.1 g.2.2.1 none, Flowable.spacer 2,
         cart_dab_table cw COND_COLW g.2.2.2, Flowable.spacer 4]

/-- Model of `generate_cart_dab_pdf_condensed` (lines 375-453): the four-bucket cart
layout when the title contains "CART", the single-section dab layout
otherwise; `doc.build` is called unconditionally (line 450). -/
def generate_cart_dab_pdf_condensed (cw : Char → ℚ) (items : List Item)
    (menu_title : String) : List ℕ :=
  let elements :=
    if containsSub (pyUpper menu_title) "CART" then
      let (carts, flavored_carts, disposables, flavored_disposables) :=
        categorize_cart_items items
      let e1 := render_section cw "CARTS" carts false true []
      let e2 := render_section cw "FLAVORED CARTS" flavored_carts false false e1
      let e3 := render_section cw "DISPOSABLES" disposables true true e2
      render_section cw "FLAVORED DISPOSABLES" flavored_disposables false false e3
    else render_section cw menu_title items false true []
  doc_build elements

/-! #### Preroll generators (lines 205-294) -/

def preroll_cat_order : List String :=
  ["Plain Prerolls", "Plain Blunts", "Infused Prerolls", "Infused Blunts", "Flavored",
   "Preroll Packs"]

/-- Model of `grouped_data.get(c)` for the six-key dict. -/
def catGet (cats : PrerollCats) (c : String) : List Item :=
  if c = "Plain Prerolls" then cats.plain_prerolls
  else if c = "Plain Blunts" then cats.plain_blunts
  else if c = "Infused Prerolls" then cats.infused_prerolls
  else if c = "Infused Blunts" then cats.infused_blunts
  else if c = "Flavored" then cats.flavored
  else if c = "Preroll Packs" then cats.preroll_packs
  else []

/-- One preroll group table (lines 229-241 / 277-287). -/
def preroll_table (cw : Char → ℚ) (colw : ℚ) (cat : String) (subitems : List Item) : Flowable :=
  let hdr :=
    if containsSub (pyLower cat) "infused" || cat = "Flavored" then
      [Cell.txt "Product Name", Cell.txt "THC MG", Cell.txt "CBD MG"]
    else [Cell.txt "Product Name", Cell.txt "THC %", Cell.txt "CBD %"]
  .table (hdr :: subitems.map fun it =>
    let nm := if cat = "Flavored" then process_flavored_title (orStr it.name "")
      else orStr it.strain ""
    [Cell.txt (truncate_text cw nm colw), Cell.txt it.thc_current,
     Cell.txt (format_cbd_value it.cbd_current)])

/-- One (brand, unit) group's flow: subheading, table and spacers
(lines 223-243 / 270-289); empty groups are skipped. -/
def preroll_group_flow (cw : Char → ℚ) (colw : ℚ) (s1 s2 : ℕ) (cat : String)
    (kv : (String × String) × List Item) : List Flowable :=
  match kv.2 with
  | [] => []
  | i :: _ =>
      [Flowable.groupHeading kv.1.1 kv.1.2 (get_price_info i).2
         (extract_pack_size (orStr i.name "")),
       Flowable.spacer s1, preroll_table cw colw cat kv.2, Flowable.spacer s2]

/-- Model of `generate_preroll_pdf` (lines 205-248): `doc.build` unconditional
(line 245). -/
def generate_preroll_pdf (cw : Char → ℚ) (grouped_data : PrerollCats) : List ℕ :=
  doc_build ((preroll_cat_order.filter fun c => catGet grouped_data c ≠ []).flatMap fun cat =>
    [Flowable.para cat, Flowable.spacer 12] ++
      (preroll_sorted_groups (catGet grouped_data cat)).flatMap
        (preroll_group_flow cw FULL_COLW 6 12 cat) ++
      [Flowable.spacer 24])

/-- Model of `generate_preroll_pdf_condensed` (lines 250-294): page breaks before
"Infused Prerolls" and "Preroll Packs" when elements already exist
(line 266); `doc.build` unconditional (line 291). -/
def generate_preroll_pdf_condensed (cw : Char → ℚ) (grouped_data : PrerollCats) : List ℕ :=
  doc_build ((preroll_cat_order.filter fun c => catGet grouped_data c ≠ []).foldl
    (fun elements cat =>
      elements ++
        (if (cat = "Infused Prerolls" ∨ cat = "Preroll Packs") ∧ elements ≠ [] then
          [Flowable.pageBreak] else []) ++
        [Flowable.para cat, Flowable.spacer 2] ++
        (preroll_sorted_groups (catGet grouped_data cat)).flatMap
          (preroll_group_flow cw COND_COLW 2 4 cat) ++
        [Flowable.spacer 8])
    [])

/-! #### Prepack generators (lines 485-591) -/

/-- One prepack body row (lines 508-514 / 566-572). -/
def prepack_row (cw : Char → ℚ) (colw : ℚ) (it : Item) : List Cell :=
  [Cell.txt (get_lineage_abbr it),
   (if (get_price_info it).2 ≠ 0 then Cell.money (get_price_info it).2 else Cell.txt ""),
   Cell.txt (get_all_weights it),
   Cell.txt (truncate_text cw (it.strain.getD "") colw),
   Cell.txt (if it.thc_current ≠ "" then it.thc_current ++ "%" else "")]

/-- The three-way designation split of both prepack generators
(lines 491-496 / 554-559), order-preserving. -/
def prepack_split (items : List Item) : List Item × List Item × List Item :=
  (items.filter fun i => get_special_designation i = "Shake",
   items.filter fun i =>
     get_special_designation i ≠ "Shake" ∧ get_special_designation i ≠ "Last of Flower / As Is",
   items.filter fun i => get_special_designation i = "Last of Flower / As Is")

/-- Model of `generate_prepack_pdf` (lines 485-540): the build runs only
`if any([shake, regular, last_of])` (line 535); otherwise the empty buffer is
returned. -/
def generate_prepack_pdf (cw : Char → ℚ) (items : List Item) : List ℕ :=
  let (shake, regular, last_of) := prepack_split items
  let shakeS := sort_items_by_price_and_lineage shake
  let regularS := sort_items_by_price_and_lineage regular
  let lastS := sort_items_by_price_and_lineage last_of
  let hdr := [Cell.txt "Lineage", Cell.txt "Price", Cell.txt "Grams", Cell.txt "Strain Name",
    Cell.txt "THC"]
  -- strain column width: doc.width 540 * 0.40 = 216
  let mkTable (l : List Item) : Flowable :=
    Flowable.table (hdr :: l.map (prepack_row cw 216))
  let elements :=
    [Flowable.para "Prepack Specials"] ++
      (if shake ≠ [] then [Flowable.para "Shake", mkTable shakeS, Flowable.spacer 12] else []) ++
      (if regular ≠ [] then [Flowable.para "Regular Prepacks", mkTable regularS] else []) ++
      (if last_of ≠ [] then
        (if shake ≠ [] ∨ regular ≠ [] then [Flowable.pageBreak] else []) ++
          [Flowable.para "Last Of Flower / As Is", mkTable lastS]
      else [])
  if shake ≠ [] ∨ regular ≠ [] ∨ last_of ≠ [] then doc_build elements else []

/-- Model of `generate_prepack_pdf_condensed` (lines 542-591): the build runs only
when `len(elements) > 2`, i.e. when at least one section is non-empty
(line 588). -/
def generate_prepack_pdf_condensed (cw : Char → ℚ) (items : List Item) : List ℕ :=
  let (shake, regular, last_of) := prepack_split items
  let hdr := [Cell.txt "Lin.", Cell.txt "Price", Cell.txt "Grams", Cell.txt "Strain",
    Cell.txt "THC"]
  let mkSection (label : String) (l : List Item) : List Flowable :=
    if l = [] then []
    else
      [Flowable.para label, Flowable.spacer 2,
       -- strain column width: fw 283 * 0.4 = 113.2
       Flowable.table (hdr :: (sort_items_by_price_and_lineage l).map (prepack_row cw (566 / 5))),
       Flowable.spacer 4]
  let elements :=
    [Flowable.para "PREPACK MENU", Flowable.spacer 4] ++ mkSection "Shake" shake ++
      mkSection "Regular Prepacks" regular ++ mkSection "Last Of Flower / As Is" last_of
  if 2 < elements.length then doc_build elements else []

/-! #### Flower generator (lines 630-683) -/

def PRICING_REC : String → String
  | "Diamond" => "Gram - $15, Eighth - $45, Quarter - $80, Half-Oz - $145, Ounce - $270"
  | "Platinum" =>
      "Gram - $14.00, Eighth - $40.00, Quarter - $72.00, Half-Oz - $135.00, Ounce - $250.00"
  | _ => "Gram - $6, Eighth - $18, Quarter - $34, Half-Oz - $65, Ounce - $125"

def PRICING_MED : String → String
  | "Diamond" =>
      "Gram - $12.50, Eighth - $37.50, Quarter - $66.67, Half-Oz - $120.83, Ounce - $225"
  | "Platinum" =>
      "Gram - $11.67, Eighth - $33.33, Quarter - $60.00, Half-Oz - $112.50, Ounce - $208.33"
  | _ => "Gram - $5, Eighth - $14.40, Quarter - $28.33, Half-Oz - $54.17, Ounce - $104.17"

/-- Model of `name.replace(" [Gold]", "")` (line 654), on char lists. -/
def removeGoldTag : List Char → List Char
  | [] => []
  | c :: cs =>
      if (" [Gold]".data).isPrefixOf (c :: cs) then removeGoldTag (cs.drop 6)
      else c :: removeGoldTag cs
termination_by l => l.length
decreasing_by
  · have : (cs.drop 6).length ≤ cs.length := by
      simpa using List.length_drop_le 6 cs
    simpa using Nat.lt_succ_of_le this
  · simp

/-- One tier's flowables (lines 643-673): headers, pricing lines, the strain
table and the legend row. -/
def flower_tier_flow (cw : Char → ℚ) (tier : String) (tier_items : List Item) : List Flowable :=
  [Flowable.para (pyUpper tier ++ " SHELF"), Flowable.spacer 12,
   Flowable.para ("REC: " ++ PRICING_REC tier), Flowable.para ("MED: " ++ PRICING_MED tier),
   Flowable.spacer 12,
   Flowable.table
     ([Cell.txt "Lineage", Cell.txt "Strain", Cell.txt "Farm", Cell.txt "THC%", Cell.txt "CBD%"] ::
       (sort_flower_items tier_items).map fun item =>
         [Cell.txt (get_lineage_abbr item),
          Cell.txt (truncate_text cw
            (String.mk (removeGoldTag (orStr item.name "").data)) (189 - 12)),
          Cell.txt (truncate_text cw (item.brand.getD "") (135 - 12)),
          Cell.txt item.thc_current,
          Cell.txt (format_cbd_value item.cbd_current)]),
   Flowable.spacer 12,
   Flowable.table [[Cell.txt "Last Chance Special 30% OFF", Cell.txt "Manager Special 50% OFF"]]]

/-- Model of `generate_flower_pdf` (lines 630-683): per-tier sections with a page
break after each non-final non-empty tier; `doc.build` runs only when some
tier produced flowables (line 678), else the empty buffer is returned. -/
def generate_flower_pdf (cw : Char → ℚ) (items : List Item) : List ℕ :=
  let d := filter_by_tier items "Diamond"
  let p := filter_by_tier items "Platinum"
  let g := filter_by_tier items "Gold"
  let all_flowables :=
    (if d = [] then [] else flower_tier_flow cw "Diamond" d ++ [Flowable.pageBreak]) ++
      (if p = [] then [] else flower_tier_flow cw "Platinum" p ++ [Flowable.pageBreak]) ++
      (if g = [] then [] else flower_tier_flow cw "Gold" g)
  if all_flowables = [] then [] else doc_build all_flowables

/-! ### General lemmas about the string primitives -/

theorem isPrefixOf_trans : ∀ {a b c : List Char},
    a.isPrefixOf b = true → b.isPrefixOf c = true → a.isPrefixOf c = true := by
  intro a
  induction a with
  | nil => intro b c _ _; simp [List.isPrefixOf]
  | cons x xs ih =>
      intro b c hab hbc
      cases b with
      | nil => simp [List.isPrefixOf] at hab
      | cons y ys =>
          cases c with
          | nil => simp [List.isPrefixOf] at hbc
          | cons z zs =>
              simp only [List.isPrefixOf, Bool.and_eq_true, beq_iff_eq] at hab hbc ⊢
              exact ⟨hab.1.trans hbc.1, ih hab.2 hbc.2⟩

theorem subAux_mono {n1 n2 : List Char} (hp : n1.isPrefixOf n2 = true) :
    ∀ {l : List Char}, subAux n2 l = true → subAux n1 l = true := by
  intro l
  induction l with
  | nil =>
      intro h
      simp only [subAux, List.isEmpty_iff] at h ⊢
      subst h
      cases n1 with
      | nil => rfl
      | cons x xs => simp [List.isPrefixOf] at hp
  | cons c cs ih =>
      intro h
      simp only [subAux, Bool.or_eq_true] at h ⊢
      rcases h with h | h
      · exact Or.inl (isPrefixOf_trans hp h)
      · exact Or.inr (ih h)

/-- If a string contains a needle, it contains every prefix of that needle. -/
theorem containsSub_mono {t n1 n2 : String} (hp : n1.data.isPrefixOf n2.data = true)
    (h : containsSub t n2 = true) : containsSub t n1 = true :=
  subAux_mono hp h

/-! ### Claim C6 — feed normalizer robustness -/

/-- Claim C6 (code_bug evidence): `extract_all_items` does degrade to `[]`
for an absent feed, an empty dict, a missing "menu_groups" key, and groups
without "menu_items" — but a present-and-null "menu_feed" value defeats the
`.get("menu_feed", {})` default and the call `None.get("menu_groups", [])`
raises `AttributeError`, contradicting the never-raise contract. -/
theorem extract_all_items_null_raises :
    extract_all_items (PyVal.dict [("menu_feed", PyVal.none)]) = Except.error "AttributeError" ∧
    extract_all_items PyVal.none = Except.ok [] ∧
    extract_all_items (PyVal.dict []) = Except.ok [] ∧
    extract_all_items (PyVal.dict [("other", PyVal.num 1)]) = Except.ok [] ∧
    extract_all_items (PyVal.dict [("menu_feed", PyVal.dict [("x", PyVal.num 1)])]) =
      Except.ok [] ∧
    extract_all_items
        (PyVal.dict [("menu_feed", PyVal.dict [("menu_groups",
          PyVal.list [PyVal.dict [("name", PyVal.str "g")]])])]) =
      Except.ok [] ∧
    extract_all_items
        (PyVal.dict [("menu_feed", PyVal.dict [("menu_groups", PyVal.none)])]) =
      Except.error "TypeError" :=
  ⟨rfl, rfl, rfl, rfl, rfl, rfl, rfl⟩

/-! ### Claim C1 — discount highlighting -/

/-- Refinement definition following the CLAIM/SPEC wording (§4.4), not the
source: a tag qualifies for the `<percent>` highlight iff, case-insensitively,
it begins with `"<percent> percent off "` and the remainder after that prefix
(i.e. after stripping "off ") starts with the requesting store's key name. -/
def spec_tag_qualifies (store_key percent tag : String) : Bool :=
  let t := (pyLower tag).data
  let pre := (percent ++ " percent off ").data
  pre.isPrefixOf t && ((pyLower store_key).data).isPrefixOf (t.drop pre.length)

def c1_item : Item := { name := some "Blue Dream", tag_list := ["Last Chance Foster"] }

/-- Claim C1 counterexample: the tag "Last Chance Foster" produces the 30%
(yellow / "Last Chance Special 30% OFF") highlight although it does not begin
with "30 percent off " for any store — the source keys highlighting on the
substrings "Last Chance"/"Manager Special" plus the literal "Foster", not on
the spec's percent-prefix format. -/
theorem flower_highlight_tag_format_cex :
    flower_row_highlight c1_item = some HighlightColor.yellow ∧
    spec_tag_qualifies "foster" "30" "Last Chance Foster" = false ∧
    spec_tag_qualifies "Foster" "30" "Last Chance Foster" = false ∧
    spec_tag_qualifies "foster" "50" "Last Chance Foster" = false := by
  decide

/-- Claim C1 amended: the flower highlight is keyed on case-sensitive
substring tests — yellow iff some tag contains both "Last Chance" and
"Foster", else lightblue iff some tag contains both "Manager Special" and
"Foster" — independent of the requesting store (the generator takes none);
consequently a tag list whose tags never mention "Foster" (e.g. tags naming
store "sandy") produces no highlight for any requesting store, foster
included. -/
theorem flower_highlight_rule (item : Item) :
    (flower_row_highlight item = some HighlightColor.yellow ↔
      is_foster_special item "Last Chance" = true) ∧
    (flower_row_highlight item = some HighlightColor.lightblue ↔
      (is_foster_special item "Last Chance" = false ∧
        is_foster_special item "Manager Special" = true)) ∧
    ((∀ tag ∈ item.tag_list, containsSub tag "Foster" = false) →
      flower_row_highlight item = none) := by
  refine ⟨?_, ?_, ?_⟩
  · cases h1 : is_foster_special item "Last Chance" <;>
      cases h2 : is_foster_special item "Manager Special" <;>
        simp [flower_row_highlight, h1, h2]
  · cases h1 : is_foster_special item "Last Chance" <;>
      cases h2 : is_foster_special item "Manager Special" <;>
        simp [flower_row_highlight, h1, h2]
  · intro h
    have hfalse : ∀ st : String, is_foster_special item st = false := by
      intro st
      simp only [is_foster_special, List.any_eq_false]
      intro tag htag
      simp [h tag htag]
    simp [flower_row_highlight, hfalse]

def c1_sandy_item : Item := { tag_list := ["30 percent off sandy", "Last Chance sandy"] }

theorem flower_highlight_rule_witness : flower_row_highlight c1_sandy_item = none :=
  (flower_highlight_rule c1_sandy_item).2.2 (by decide)

/-! ### Claim C4 — preroll brand-override precedence -/

def c4_blunt_item : Item :=
  { name := some "Hellavated Blunt 1g", brand := some "Hellavated",
    product_type := some "infused preroll",
    prices := [{ unit := "1g", price_cents := some 1200 }] }

def c4_portland_item : Item :=
  { name := some "Fruit Punch Roll", brand := some "Portland Heights",
    product_type := some "flavored" }

/-- Claim C4 counterexample: for both brands the source special-cases, other
signals override the claimed unconditional "Infused Prerolls": a "hellavated"
item whose title contains "blunt" is classified "Infused Blunts", and a
"portland heights" item whose product type contains "flavored" is classified
"Flavored" (the flavored/combined product-type rule runs before any brand
rule). -/
theorem preroll_brand_override_cex :
    containsSub (preroll_brand c4_blunt_item) "hellavated" = true ∧
    determine_preroll_category c4_blunt_item = some "Infused Blunts" ∧
    preroll_brand c4_portland_item = "portland heights" ∧
    determine_preroll_category c4_portland_item = some "Flavored" := by
  decide

/-- Claim C4 amended: the brand special-cases are neither first nor absolute.
The flavored/combined product-type rule precedes them; a "hellavated" brand
yields "Infused Prerolls" only when the title has no "flavored" and no
"blunt" keyword and the parsed weight is < 1.5; "portland heights" merely
forces the infused flag, yielding "Infused Prerolls" only when additionally
the weight is ≤ 2.9 and no blunt keyword appears. -/
theorem preroll_brand_override_scope (item : Item) (w : ℕ × ℕ)
    (hw : preroll_weight item = some w)
    (hpt1 : containsSub (preroll_ptype item) "flavored" = false)
    (hpt2 : containsSub (preroll_ptype item) "combined" = false)
    (ht1 : containsSub (preroll_title item) "flavored" = false)
    (ht2 : containsSub (preroll_title item) "blunt" = false) :
    (containsSub (preroll_brand item) "hellavated" = true →
      10 * w.1 < 15 * 10 ^ w.2 →
      determine_preroll_category item = some "Infused Prerolls") ∧
    (preroll_brand item = "portland heights" →
      10 * w.1 ≤ 29 * 10 ^ w.2 →
      determine_preroll_category item = some "Infused Prerolls") := by
  have ht3 : containsSub (preroll_title item) "blunts" = false := by
    cases h3 : containsSub (preroll_title item) "blunts"
    · rfl
    · have hmono : containsSub (preroll_title item) "blunt" = true :=
        containsSub_mono (by decide) h3
      rw [hmono] at ht2
      exact ht2
  constructor
  · intro hb hlt
    have hw15 : ¬ (15 * 10 ^ w.2 ≤ 10 * w.1) := by omega
    simp [determine_preroll_category, hw, hpt1, hpt2, hb, ht1, ht2, hw15]
  · intro hb hle
    have hnb : containsSub (preroll_brand item) "hellavated" = false := by
      rw [hb]; decide
    have hw29 : ¬ (29 * 10 ^ w.2 < 10 * w.1) := by omega
    have hc : containsSub "portland heights" "hellavated" = false := by decide
    simp [determine_preroll_category, hw, hpt1, hpt2, hnb, hb, ht2, ht3, hw29, hc]

def c4_witness_item : Item :=
  { name := some "Hellavated Doobie 1g", brand := some "Hellavated",
    product_type := some "infused",
    prices := [{ unit := "1g", price_cents := some 900 }] }

theorem preroll_brand_override_scope_witness :
    determine_preroll_category c4_witness_item = some "Infused Prerolls" :=
  (preroll_brand_override_scope c4_witness_item (1, 0) (by decide) (by decide) (by decide)
    (by decide) (by decide)).1 (by decide) (by decide)

/-! ### Claim C5 — flower sort order -/

/-- Refinement definition following the CLAIM/SPEC wording (§4.3), not the
source: the key the claim asserts for flower —
`(price in minor units or a large sentinel when absent, lineage sort weight,
lowercased name)`. -/
def claimed_flower_sort_key (i : Item) : Lex (ℕ × Lex (ℕ × List Char)) :=
  let cents := match i.prices with
    | [] => 999999
    | p :: _ => p.price_cents.getD 999999
  toLex (cents,
    toLex (get_lineage_order (get_lineage_abbr i), (pyLower (orStr i.name "")).data))

def c5_first : Item :=
  { name := some "Zeta", flower_type := some "sativa",
    prices := [{ unit := "1g", price_cents := some 9900 }], tier_name := "Diamond" }

def c5_second : Item :=
  { name := some "Alpha", flower_type := some "hybrid",
    prices := [{ unit := "1g", price_cents := some 100 }], tier_name := "Diamond" }

/-- Claim C5 counterexample: `sort_flower_items` keeps the $99.00 sativa
"Zeta" ahead of the $1.00 hybrid "Alpha", although the claimed
price-first key orders "Alpha" strictly first — flower sorting ignores price
entirely (and has no brand/price/identifier tiebreaks). -/
theorem sort_flower_items_not_price_ordered_cex :
    sort_flower_items [c5_first, c5_second] = [c5_first, c5_second] ∧
    claimed_flower_sort_key c5_second < claimed_flower_sort_key c5_first := by
  decide

/-- Claim C5 amended: flower items in each tier's table are ordered by
`(lineage sort weight, name.strip().lower())` alone — price plays no role and
no further brand/price/identifier tiebreak exists; ties keep input order
(stable sort), and the output is a permutation of the input. -/
theorem sort_flower_items_spec (items : List Item) :
    (sort_flower_items items).Perm items ∧
    (sort_flower_items items).Sorted (fun a b => flower_sort_key a ≤ flower_sort_key b) :=
  ⟨pySorted_perm _ _, pySorted_sorted _ _⟩

/-! ### Claim C7 — condensed cart buckets -/

theorem categorize_cart_items_eq_filters (items : List Item) :
    categorize_cart_items items =
      (items.filter (fun i => !is_disposable_item i && !is_flavored_item i),
       items.filter (fun i => !is_disposable_item i && is_flavored_item i),
       items.filter (fun i => is_disposable_item i && !is_flavored_item i),
       items.filter (fun i => is_disposable_item i && is_flavored_item i)) := by
  induction items with
  | nil => rfl
  | cons i rest ih =>
      simp only [categorize_cart_items, ih]
      cases hd : is_disposable_item i <;> cases hf : is_flavored_item i <;>
        simp [List.filter_cons, hd, hf]

/-- Claim C7: the condensed cart layout's four buckets partition the input —
tested in the precedence order flavored-disposable, disposable, flavored,
plain — and an item whose name contains "disposable" (hence the "dispos"
keyword) and whose product type contains "flavored" always lands in the
FLAVORED DISPOSABLES bucket and in none of the other three. -/
theorem cart_condensed_bucket_partition (items carts flavored_carts disposables
    flavored_disposables : List Item)
    (h : categorize_cart_items items =
      (carts, flavored_carts, disposables, flavored_disposables)) :
    (flavored_disposables ++ disposables ++ flavored_carts ++ carts).Perm items ∧
    (∀ i, i ∈ flavored_disposables ↔
      i ∈ items ∧ is_disposable_item i = true ∧ is_flavored_item i = true) ∧
    (∀ i, i ∈ disposables ↔
      i ∈ items ∧ is_disposable_item i = true ∧ is_flavored_item i = false) ∧
    (∀ i, i ∈ flavored_carts ↔
      i ∈ items ∧ is_disposable_item i = false ∧ is_flavored_item i = true) ∧
    (∀ i, i ∈ carts ↔
      i ∈ items ∧ is_disposable_item i = false ∧ is_flavored_item i = false) ∧
    (∀ i ∈ items, containsSub (pyLower (orStr i.name "")) "disposable" = true →
      containsSub (pyLower (orStr i.product_type "")) "flavored" = true →
      i ∈ flavored_disposables ∧ i ∉ disposables ∧ i ∉ flavored_carts ∧ i ∉ carts) := by
  rw [categorize_cart_items_eq_filters] at h
  have h1 := congrArg (fun t : List Item × List Item × List Item × List Item => t.1) h
  have h2 := congrArg (fun t : List Item × List Item × List Item × List Item => t.2.1) h
  have h3 := congrArg (fun t : List Item × List Item × List Item × List Item => t.2.2.1) h
  have h4 := congrArg (fun t : List Item × List Item × List Item × List Item => t.2.2.2) h
  simp only at h1 h2 h3 h4
  subst h1 h2 h3 h4
  have hmem : ∀ (p : Item → Bool) (i : Item), i ∈ items.filter p ↔ i ∈ items ∧ p i = true :=
    fun p i => List.mem_filter
  refine ⟨?_, ?_, ?_, ?_, ?_, ?_⟩
  · rw [List.perm_iff_count]
    intro a
    have z : ∀ p : Item → Bool, p a = false → List.count a (items.filter p) = 0 := by
      intro p hp
      rw [List.count_eq_zero]
      simp [List.mem_filter, hp]
    have e : ∀ p : Item → Bool, p a = true → List.count a (items.filter p) = List.count a items :=
      fun p hp => List.count_filter hp
    simp only [List.count_append]
    cases hd : is_disposable_item a <;> cases hf : is_flavored_item a
    · rw [z (fun i => is_disposable_item i && is_flavored_item i) (by simp [hd]),
        z (fun i => is_disposable_item i && !is_flavored_item i) (by simp [hd]),
        z (fun i => !is_disposable_item i && is_flavored_item i) (by simp [hf]),
        e (fun i => !is_disposable_item i && !is_flavored_item i) (by simp [hd, hf])]
      omega
    · rw [z (fun i => is_disposable_item i && is_flavored_item i) (by simp [hd]),
        z (fun i => is_disposable_item i && !is_flavored_item i) (by simp [hd]),
        z (fun i => !is_disposable_item i && !is_flavored_item i) (by simp [hf]),
        e (fun i => !is_disposable_item i && is_flavored_item i) (by simp [hd, hf])]
      omega
    · rw [z (fun i => is_disposable_item i && is_flavored_item i) (by simp [hf]),
        z (fun i => !is_disposable_item i && is_flavored_item i) (by simp [hd]),
        z (fun i => !is_disposable_item i && !is_flavored_item i) (by simp [hd]),
        e (fun i => is_disposable_item i && !is_flavored_item i) (by simp [hd, hf])]
      omega
    · rw [z (fun i => is_disposable_item i && !is_flavored_item i) (by simp [hf]),
        z (fun i => !is_disposable_item i && is_flavored_item i) (by simp [hd]),
        z (fun i => !is_disposable_item i && !is_flavored_item i) (by simp [hd]),
        e (fun i => is_disposable_item i && is_flavored_item i) (by simp [hd, hf])]
      omega
  · intro i; rw [hmem]; simp
  · intro i; rw [hmem]; simp
  · intro i; rw [hmem]; simp
  · intro i; rw [hmem]; simp
  · intro i hi hn hp
    have hd : is_disposable_item i = true := by
      have : containsSub (pyLower (orStr i.name "")) "dispos" = true :=
        containsSub_mono (by decide) hn
      simp [is_disposable_item, this]
    have hf : is_flavored_item i = true := by
      simp [is_flavored_item, hp]
    refine ⟨(hmem _ i).mpr ⟨hi, by simp [hd, hf]⟩, ?_, ?_, ?_⟩ <;>
      · intro hcontra
        rw [hmem] at hcontra
        simp [hd, hf] at hcontra

def c7_item : Item :=
  { name := some "Brand - Mango Disposable 1g", product_type := some "flavored vape" }

theorem cart_condensed_bucket_partition_witness :
    c7_item ∈ [c7_item] ∧ c7_item ∉ ([] : List Item) ∧ c7_item ∉ ([] : List Item) ∧
      c7_item ∉ ([] : List Item) :=
  (cart_condensed_bucket_partition [c7_item] [] [] [] [c7_item] (by decide)).2.2.2.2.2
    c7_item (by decide) (by decide) (by decide)

/-! ### Claims C8 and C3 — preroll partition and the bucket universe -/

/-- All bucket contents of the `cats` dict, concatenated. -/
def joinCats (cats : PrerollCats) : List Item :=
  ((prerollCatsList cats).map Prod.snd).join

/-- Every item of every bucket classifies to that bucket's key. -/
def catsInv (cats : PrerollCats) : Prop :=
  (∀ i ∈ cats.plain_prerolls, determine_preroll_category i = some "Plain Prerolls") ∧
  (∀ i ∈ cats.plain_blunts, determine_preroll_category i = some "Plain Blunts") ∧
  (∀ i ∈ cats.infused_prerolls, determine_preroll_category i = some "Infused Prerolls") ∧
  (∀ i ∈ cats.infused_blunts, determine_preroll_category i = some "Infused Blunts") ∧
  (∀ i ∈ cats.flavored, determine_preroll_category i = some "Flavored") ∧
  (∀ i ∈ cats.preroll_packs, determine_preroll_category i = some "Preroll Packs")

theorem updateCat_join {cats cats' : PrerollCats} {c : String} {i : Item}
    (h : updateCat cats c i = some cats') :
    (joinCats cats').Perm (joinCats cats ++ [i]) := by
  unfold updateCat at h
  split_ifs at h <;> simp only [Option.some.injEq] at h <;> subst h <;>
    rw [List.perm_iff_count] <;> intro a <;>
    simp [joinCats, prerollCatsList, List.count_append, List.count_cons] <;>
    split_ifs <;> omega

theorem updateCat_inv {cats cats' : PrerollCats} {c : String} {i : Item}
    (h : updateCat cats c i = some cats') (hdet : determine_preroll_category i = some c)
    (hinv : catsInv cats) : catsInv cats' := by
  obtain ⟨h1, h2, h3, h4, h5, h6⟩ := hinv
  have mem_case : ∀ (l : List Item) (key : String),
      (∀ j ∈ l, determine_preroll_category j = some key) →
      determine_preroll_category i = some key →
      ∀ j ∈ l ++ [i], determine_preroll_category j = some key := by
    intro l key hl hi j hj
    rcases List.mem_append.mp hj with hj | hj
    · exact hl j hj
    · rw [List.mem_singleton.mp hj]; exact hi
  unfold updateCat at h
  split_ifs at h with hc1 hc2 hc3 hc4 hc5 hc6 <;> simp only [Option.some.injEq] at h <;> subst h
  · exact ⟨mem_case _ _ h1 (hc1 ▸ hdet), h2, h3, h4, h5, h6⟩
  · exact ⟨h1, mem_case _ _ h2 (hc2 ▸ hdet), h3, h4, h5, h6⟩
  · exact ⟨h1, h2, mem_case _ _ h3 (hc3 ▸ hdet), h4, h5, h6⟩
  · exact ⟨h1, h2, h3, mem_case _ _ h4 (hc4 ▸ hdet), h5, h6⟩
  · exact ⟨h1, h2, h3, h4, mem_case _ _ h5 (hc5 ▸ hdet), h6⟩
  · exact ⟨h1, h2, h3, h4, h5, mem_case _ _ h6 (hc6 ▸ hdet)⟩

theorem group_preroll_aux : ∀ (items : List Item) (acc cats : PrerollCats),
    items.foldlM
      (fun cats item =>
        (determine_preroll_category item).bind fun cat => updateCat cats cat item)
      acc = some cats →
    catsInv acc →
    (joinCats cats).Perm (joinCats acc ++ items) ∧ catsInv cats := by
  intro items
  induction items with
  | nil =>
      intro acc cats h hinv
      simp only [List.foldlM_nil] at h
      simp only [pure, Option.some.injEq] at h
      subst h
      exact ⟨by simp, hinv⟩
  | cons i rest ih =>
      intro acc cats h hinv
      rw [List.foldlM_cons] at h
      simp only [bind, Option.bind_eq_some] at h
      obtain ⟨acc', hstep, hrest⟩ := h
      obtain ⟨c, hdet, hupd⟩ := hstep
      obtain ⟨hperm, hinv'⟩ := ih acc' cats hrest (updateCat_inv hupd hdet hinv)
      refine ⟨?_, hinv'⟩
      have hstep2 : (joinCats acc' ++ rest).Perm (joinCats acc ++ (i :: rest)) := by
        have h1 := (updateCat_join hupd).append_right rest
        simpa using h1
      exact hperm.trans hstep2

theorem catsInv_empty : catsInv emptyPrerollCats := by
  refine ⟨?_, ?_, ?_, ?_, ?_, ?_⟩ <;> simp [emptyPrerollCats]

/-- Claim C8: whenever grouping succeeds, the six category buckets partition
the input — the concatenation of all buckets is a permutation of the input
list, every item sits in the bucket its own classification names, and the six
bucket keys are pairwise distinct (so no item occurrence appears in two
buckets). -/
theorem group_preroll_items_partition (items : List Item) (cats : PrerollCats)
    (h : group_preroll_items items = some cats) :
    (((prerollCatsList cats).map Prod.snd).join).Perm items ∧
    (∀ p ∈ prerollCatsList cats, ∀ i ∈ p.2, determine_preroll_category i = some p.1) ∧
    ((prerollCatsList cats).map Prod.fst).Nodup := by
  obtain ⟨hperm, hinv⟩ := group_preroll_aux items emptyPrerollCats cats h catsInv_empty
  obtain ⟨h1, h2, h3, h4, h5, h6⟩ := hinv
  refine ⟨?_, ?_, ?_⟩
  · have hbase : joinCats emptyPrerollCats = [] := rfl
    rw [hbase, List.nil_append] at hperm
    exact hperm
  · intro p hp
    simp only [prerollCatsList, List.mem_cons, List.not_mem_nil, or_false] at hp
    rcases hp with rfl | rfl | rfl | rfl | rfl | rfl
    · exact h1
    · exact h2
    · exact h3
    · exact h4
    · exact h5
    · exact h6
  · show (["Plain Prerolls", "Plain Blunts", "Infused Prerolls", "Infused Blunts", "Flavored",
      "Preroll Packs"] : List String).Nodup
    decide

def c8_item : Item :=
  { name := some "Classic Joint 1g", strain := some "GG4",
    prices := [{ unit := "1g", price_cents := some 500 }] }

theorem group_preroll_items_partition_witness :
    (((prerollCatsList { plain_prerolls := [c8_item] }).map Prod.snd).join).Perm [c8_item] ∧
    (∀ p ∈ prerollCatsList { plain_prerolls := [c8_item] },
      ∀ i ∈ p.2, determine_preroll_category i = some p.1) ∧
    ((prerollCatsList { plain_prerolls := [c8_item] }).map Prod.fst).Nodup :=
  group_preroll_items_partition [c8_item] { plain_prerolls := [c8_item] } (by decide)

def c3_pack_item : Item :=
  { name := some "Party Pack 3.5g", brand := some "Hellavated",
    product_type := some "infused",
    prices := [{ unit := "3.5", price_cents := some 2500 }] }

/-- Claim C3 counterexample: a "Preroll Packs" item from the very brand the
source special-cases is left in the "Preroll Packs" bucket, and the grouped
output has no "Infused Preroll Packs" bucket at all — no secondary
reclassification step exists anywhere in the source. -/
theorem preroll_no_infused_pack_bucket_cex :
    group_preroll_items [c3_pack_item] = some { preroll_packs := [c3_pack_item] } ∧
    (prerollCatsList { preroll_packs := [c3_pack_item] }).lookup "Infused Preroll Packs"
      = none ∧
    ((prerollCatsList { preroll_packs := [c3_pack_item] }).map Prod.fst).all
      (fun k => k ≠ "Infused Preroll Packs") = true := by
  decide

/-- Claim C3 amended: there is no secondary reclassification and no
"Infused Preroll Packs" category — whenever grouping succeeds the bucket keys
are exactly the six of `preroll_cat_order`, an "Infused Preroll Packs" lookup
finds nothing, and every item of the "Preroll Packs" bucket still classifies
as "Preroll Packs". -/
theorem group_preroll_buckets_fixed (items : List Item) (cats : PrerollCats)
    (h : group_preroll_items items = some cats) :
    (prerollCatsList cats).map Prod.fst = preroll_cat_order ∧
    (prerollCatsList cats).lookup "Infused Preroll Packs" = none ∧
    (∀ i ∈ cats.preroll_packs, determine_preroll_category i = some "Preroll Packs") := by
  obtain ⟨_, hinv⟩ := group_preroll_aux items emptyPrerollCats cats h catsInv_empty
  exact ⟨rfl, rfl, hinv.2.2.2.2.2⟩

def c3_flavored_item : Item :=
  { name := some "Hella - Grape Roll", product_type := some "flavored preroll" }

theorem group_preroll_buckets_fixed_witness :
    (prerollCatsList { flavored := [c3_flavored_item] }).map Prod.fst = preroll_cat_order ∧
    (prerollCatsList { flavored := [c3_flavored_item] }).lookup "Infused Preroll Packs"
      = none ∧
    (∀ i ∈ ({ flavored := [c3_flavored_item] } : PrerollCats).preroll_packs,
      determine_preroll_category i = some "Preroll Packs") :=
  group_preroll_buckets_fixed [c3_flavored_item] { flavored := [c3_flavored_item] } (by decide)

/-! ### Claim C10 — group subheading price is the group minimum -/

theorem lookup_keyed {κ α : Type} [BEq κ] [LawfulBEq κ] (ks : List κ) (g : κ → α) (k : κ)
    (hk : k ∈ ks) : List.lookup k (ks.map fun x => (x, g x)) = some (g k) := by
  induction ks with
  | nil => cases hk
  | cons a rest ih =>
      simp only [List.map_cons, List.lookup]
      cases h : k == a
      · have hmem : k ∈ rest := by
          rcases List.mem_cons.mp hk with rfl | hm
          · simp at h
          · exact hm
        simpa using ih hmem
      · have : k = a := eq_of_beq h
        subst this
        simp

theorem price_le_of_key_le {a c : Item}
    (h : price_lineage_strain_key a ≤ price_lineage_strain_key c) :
    (get_price_info a).2 ≤ (get_price_info c).2 := by
  unfold price_lineage_strain_key at h
  rcases (Prod.Lex.le_iff _ _).mp h with h1 | ⟨h1, _⟩
  · exact le_of_lt h1
  · exact le_of_eq h1

/-- Claim C10: every subheading row `(brand, unit, printed price)` produced
for the preroll documents satisfies: the printed price is attained by some
input item of that (brand, unit) group and is a lower bound for the whole
group — i.e. it is the group-wide minimum, because the group members are
sorted ascending by (price, lineage, strain) and the heading displays the
first member's price. -/
theorem preroll_heading_price_is_min (cat_items : List Item) (b u : String) (p : ℕ)
    (h : (b, u, p) ∈ preroll_group_rows cat_items) :
    (∃ j, j ∈ cat_items ∧ brand_unit_key j = (b, u) ∧ (get_price_info j).2 = p) ∧
    (∀ i ∈ cat_items, brand_unit_key i = (b, u) → p ≤ (get_price_info i).2) := by
  classical
  rw [preroll_group_rows, List.mem_filterMap] at h
  obtain ⟨kv, hkv, hmatch⟩ := h
  simp only [preroll_sorted_groups] at hkv
  set D := firstKeyDedup (cat_items.map brand_unit_key) with hD
  set F := fun k : String × String => cat_items.filter fun i => brand_unit_key i = k with hF
  have hM : (group_by_brand_unit cat_items).map
      (fun kv => (kv.1, pySorted price_lineage_strain_key kv.2)) =
      D.map (fun k => (k, pySorted price_lineage_strain_key (F k))) := by
    unfold group_by_brand_unit
    rw [List.map_map]
    rfl
  rw [hM] at hkv
  have hMfst : (D.map (fun k => (k, pySorted price_lineage_strain_key (F k)))).map Prod.fst
      = D := by
    rw [List.map_map]
    exact List.map_id _
  rw [hMfst] at hkv
  rw [List.mem_map] at hkv
  obtain ⟨k, hk, hkveq⟩ := hkv
  have hkD : k ∈ D := ((pySorted_perm _ _).mem_iff).mp hk
  have hlook : (D.map (fun k => (k, pySorted price_lineage_strain_key (F k)))).lookup k
      = some (pySorted price_lineage_strain_key (F k)) :=
    lookup_keyed D _ k hkD
  rw [hlook] at hkveq
  subst hkveq
  cases hsort : pySorted price_lineage_strain_key (F k) with
  | nil =>
      rw [hsort] at hmatch
      simp at hmatch
  | cons hd tl =>
      rw [hsort] at hmatch
      simp only [Option.getD_some, Option.some.injEq, Prod.mk.injEq] at hmatch
      obtain ⟨hb, hu, hp⟩ := hmatch
      have hkbu : k = (b, u) := Prod.ext hb hu
      have hhd : hd ∈ F k := by
        have hmem : hd ∈ pySorted price_lineage_strain_key (F k) := by
          rw [hsort]; exact List.mem_cons_self _ _
        exact ((pySorted_perm _ _).mem_iff).mp hmem
      have hhd' := List.mem_filter.mp hhd
      constructor
      · refine ⟨hd, hhd'.1, ?_, hp⟩
        rw [← hkbu]
        exact of_decide_eq_true hhd'.2
      · intro i hi hbu
        have hiF : i ∈ F k := by
          refine List.mem_filter.mpr ⟨hi, ?_⟩
          rw [hkbu]
          exact decide_eq_true hbu
        have hisort : i ∈ hd :: tl := by
          rw [← hsort]
          exact ((pySorted_perm _ _).mem_iff).mpr hiF
        rcases List.mem_cons.mp hisort with rfl | hitl
        · exact le_of_eq hp.symm
        · have hsorted := pySorted_sorted price_lineage_strain_key (F k)
          rw [hsort] at hsorted
          have hrel := (List.sorted_cons.mp hsorted).1 i hitl
          have hle := price_le_of_key_le hrel
          omega

def c10_first : Item :=
  { strain := some "Blueberry", brand := some "BrandX",
    prices := [{ unit := "1g", price_cents := some 1500 }] }

def c10_second : Item :=
  { strain := some "Apple", brand := some "BrandX",
    prices := [{ unit := "1g", price_cents := some 1000 }] }

theorem preroll_heading_price_is_min_witness :
    (∃ j, j ∈ [c10_first, c10_second] ∧ brand_unit_key j = ("BrandX", "1g") ∧
      (get_price_info j).2 = 1000) ∧
    (∀ i ∈ [c10_first, c10_second], brand_unit_key i = ("BrandX", "1g") →
      1000 ≤ (get_price_info i).2) :=
  preroll_heading_price_is_min [c10_first, c10_second] "BrandX" "1g" 1000 (by decide)

/-! ### Claim C2 — empty classified input vs. the document build -/

def cw_one : Char → ℚ := fun _ => 1

/-- Claim C2 counterexample: the cart/dab generator invoked on a wholly empty
item list still runs `doc.build` (line 370) and returns a non-empty PDF shell
(it even renders the menu-title header), not a zero-length byte result. -/
theorem generate_cart_dab_pdf_empty_builds_cex :
    generate_cart_dab_pdf cw_one [] "CART MENU" ≠ [] := by
  have h : generate_cart_dab_pdf cw_one [] "CART MENU" =
      doc_build [Flowable.para "CART MENU", Flowable.spacer 12] := rfl
  rw [h, doc_build]
  simp

/-- Claim C2 amended: only the prepack generators (full and condensed) and
the flower generator skip the document build and return a zero-length byte
result on empty classified input; the cart/dab generators (both variants)
and both preroll generators always invoke the build and return a non-empty
PDF shell. -/
theorem empty_input_build_behavior (cw : Char → ℚ) :
    (∀ menu_title, generate_cart_dab_pdf cw [] menu_title ≠ []) ∧
    generate_cart_dab_pdf_condensed cw [] "CART MENU" ≠ [] ∧
    generate_cart_dab_pdf_condensed cw [] "DAB MENU" ≠ [] ∧
    generate_preroll_pdf cw emptyPrerollCats ≠ [] ∧
    generate_preroll_pdf_condensed cw emptyPrerollCats ≠ [] ∧
    generate_prepack_pdf cw [] = [] ∧
    generate_prepack_pdf_condensed cw [] = [] ∧
    (∀ items, filter_by_tier items "Diamond" = [] → filter_by_tier items "Platinum" = [] →
      filter_by_tier items "Gold" = [] → generate_flower_pdf cw items = []) := by
  refine ⟨?_, ?_, ?_, ?_, ?_, ?_, ?_, ?_⟩
  · intro menu_title
    have h : generate_cart_dab_pdf cw [] menu_title =
        doc_build [Flowable.para menu_title, Flowable.spacer 12] := rfl
    rw [h, doc_build]
    simp
  · have h : generate_cart_dab_pdf_condensed cw [] "CART MENU" = doc_build [] := rfl
    rw [h, doc_build]
    simp
  · have h : generate_cart_dab_pdf_condensed cw [] "DAB MENU" = doc_build [] := rfl
    rw [h, doc_build]
    simp
  · have h : generate_preroll_pdf cw emptyPrerollCats = doc_build [] := rfl
    rw [h, doc_build]
    simp
  · have h : generate_preroll_pdf_condensed cw emptyPrerollCats = doc_build [] := rfl
    rw [h, doc_build]
    simp
  · rfl
  · rfl
  · intro items h1 h2 h3
    simp [generate_flower_pdf, h1, h2, h3]

theorem empty_input_build_behavior_witness :
    generate_cart_dab_pdf cw_one [] "DAB MENU" ≠ [] ∧
    generate_flower_pdf cw_one [] = [] :=
  ⟨(empty_input_build_behavior cw_one).1 "DAB MENU",
   (empty_input_build_behavior cw_one).2.2.2.2.2.2.2 [] rfl rfl rfl⟩

end MenuGen
